import Mathlib

/-
Verification of the skill detection, dispatch, and chaining engine of the
jarvis assistant bot: a shallow embedding of the SkillManager, the skill
implementations it dispatches to (cron, calculator), and the CronBridge
scheduled-task facility, together with theorems about their behaviour.

Strings are modelled as Lean Strings; the specific regular-expression
searches of the source (leftmost match, case-insensitive, greedy) are
implemented as deterministic scanners, which coincide with the JS regex
semantics on these particular patterns because no pattern here requires
backtracking.  JS numbers are modelled as exact rationals extended with
infinities and NaN.
-/

/-- Characters matched by the JS regex class \s (the ASCII subset; the inputs
manipulated by the engine only contain these). -/
def isWsChar (c : Char) : Bool :=
  c = ' ' || c = '\t' || c = '\n' || c = '\r' || c = '\x0b' || c = '\x0c'

/-- Case folding as performed by the /i regex flag on the characters appearing
in the source's patterns: ASCII letters, plus the accented E of "Délai". -/
def caseFold (c : Char) : Char :=
  if 'A' ≤ c ∧ c ≤ 'Z' then Char.ofNat (c.toNat + 32)
  else if c = 'É' then 'é' else c

/-- Match a literal pattern (case-insensitively) at the head of the input,
returning the remaining input on success. -/
def matchChars : List Char → List Char → Option (List Char)
  | [], rest => some rest
  | _ :: _, [] => none
  | p :: ps, c :: cs => if caseFold c = caseFold p then matchChars ps cs else none

/-- Consume the maximal run of \s characters (the greedy \s*). -/
def skipWs : List Char → List Char
  | [] => []
  | c :: cs => if isWsChar c then skipWs cs else c :: cs

/-- Split off the maximal run of ASCII digits (the greedy \d+ / \d*). -/
def takeDigits : List Char → List Char × List Char
  | [] => ([], [])
  | c :: cs =>
    if c.isDigit then
      let r := takeDigits cs
      (c :: r.1, r.2)
    else ([], c :: cs)

/-- Split off the maximal run of non-quote characters (the greedy [^"]+). -/
def takeNonQuote : List Char → List Char × List Char
  | [] => ([], [])
  | c :: cs =>
    if c = '"' then ([], c :: cs)
    else
      let r := takeNonQuote cs
      (c :: r.1, r.2)

/-- Numeric value of a digit string, as parseInt computes it on \d+. -/
def digitsToNat (l : List Char) : Nat :=
  l.foldl (fun acc c => acc * 10 + (c.toNat - '0'.toNat)) 0

/-- Case-sensitive prefix test (String.prototype.includes is case-sensitive). -/
def beginsWith : List Char → List Char → Bool
  | [], _ => true
  | _ :: _, [] => false
  | p :: ps, c :: cs => p = c && beginsWith ps cs

/-- Case-sensitive substring test on character lists. -/
def containsList (pat : List Char) : List Char → Bool
  | [] => beginsWith pat []
  | c :: cs => beginsWith pat (c :: cs) || containsList pat cs

/-- Model of JS String.prototype.includes. -/
def containsStr (s pat : String) : Bool :=
  containsList pat.data s.data

/-- Attempt, at one position, the pattern \[SKILL:\s*<name>\] of the skills'
detection regexes (case-insensitive). -/
def tagMatchAt (name : List Char) (l : List Char) : Bool :=
  match matchChars ("[skill:".data) l with
  | none => false
  | some rest =>
    match matchChars (name ++ [']']) (skipWs rest) with
    | none => false
    | some _ => true

/-- Leftmost search for \[SKILL:\s*<name>\] anywhere in the text. -/
def hasTag (name : List Char) : List Char → Bool
  | [] => false
  | c :: cs => tagMatchAt name (c :: cs) || hasTag name cs

/-- Attempt, at one position, the pattern <key>:\s*"([^"]+)" and return the
capture. -/
def quotedAt (key : List Char) (l : List Char) : Option String :=
  match matchChars (key ++ [':']) l with
  | none => none
  | some rest =>
    match skipWs rest with
    | '"' :: rest2 =>
      match takeNonQuote rest2 with
      | ([], _) => none
      | (cap, '"' :: _) => some (String.mk cap)
      | (_, _) => none
    | _ => none

/-- Leftmost search for <key>:\s*"([^"]+)"; the first match is returned, as
String.prototype.match does without the g flag. -/
def findQuotedAux (key : List Char) : List Char → Option String
  | [] => none
  | c :: cs =>
    match quotedAt key (c :: cs) with
    | some s => some s
    | none => findQuotedAux key cs

/-- Search a string for <key>:\s*"([^"]+)" (case-insensitive on the key). -/
def findQuoted (key : String) (s : String) : Option String :=
  findQuotedAux key.data s.data

/-- Attempt, at one position, the pattern D[eé]lai:\s*(\d+)(s|m|h) of the cron
delay field, returning the numeric capture and the lower-cased unit. -/
def delayAt (l : List Char) : Option (Nat × Char) :=
  match l with
  | [] => none
  | c :: rest =>
    if caseFold c = 'd' then
      match rest with
      | [] => none
      | e :: rest2 =>
        if caseFold e = 'e' ∨ caseFold e = 'é' then
          match matchChars ("lai:".data) rest2 with
          | none => none
          | some rest3 =>
            match takeDigits (skipWs rest3) with
            | ([], _) => none
            | (_, []) => none
            | (ds, u :: _) =>
              let ul := caseFold u
              if ul = 's' ∨ ul = 'm' ∨ ul = 'h' then some (digitsToNat ds, ul)
              else none
        else none
    else none

/-- Leftmost search for the delay pattern. -/
def findDelayAux : List Char → Option (Nat × Char)
  | [] => none
  | c :: cs =>
    match delayAt (c :: cs) with
    | some r => some r
    | none => findDelayAux cs

/-- Search a string for D[eé]lai:\s*(\d+)(s|m|h). -/
def findDelay (s : String) : Option (Nat × Char) :=
  findDelayAux s.data

/-- Model of a JS number: an exact rational, an infinity, or NaN.  JS numbers
are binary floats; the engine's verified behaviour only involves small whole
numbers and short decimal literals, on which float and rational arithmetic
agree. -/
inductive JNum where
  | fin (q : Rat)
  | inf (pos : Bool)
  | nan
deriving Repr, DecidableEq

namespace JNum

def neg : JNum → JNum
  | fin q => fin (-q)
  | inf p => inf (!p)
  | nan => nan

def add : JNum → JNum → JNum
  | nan, _ => nan
  | _, nan => nan
  | inf p, inf q => if p = q then inf p else nan
  | inf p, fin _ => inf p
  | fin _, inf q => inf q
  | fin a, fin b => fin (a + b)

def sub (a b : JNum) : JNum := a.add b.neg

def mul : JNum → JNum → JNum
  | nan, _ => nan
  | _, nan => nan
  | inf p, inf q => inf (p = q)
  | inf p, fin b => if b = 0 then nan else if 0 < b then inf p else inf (!p)
  | fin a, inf q => if a = 0 then nan else if 0 < a then inf q else inf (!q)
  | fin a, fin b => fin (a * b)

def div : JNum → JNum → JNum
  | nan, _ => nan
  | _, nan => nan
  | inf _, inf _ => nan
  | inf p, fin b => if 0 ≤ b then inf p else inf (!p)
  | fin _, inf _ => fin 0
  | fin a, fin b =>
    if b = 0 then
      if a = 0 then nan else if 0 < a then inf true else inf false
    else fin (a / b)

/-- JS truthiness of a number: 0 and NaN are falsy. -/
def truthy : JNum → Bool
  | fin q => q ≠ 0
  | inf _ => true
  | nan => false

/-- The comparison n > 0 as JS evaluates it (false on NaN). -/
def gtZero : JNum → Bool
  | fin q => 0 < q
  | inf p => p
  | nan => false

/-- Number.isInteger. -/
def isInteger : JNum → Bool
  | fin q => q.den = 1
  | _ => false

end JNum

/-
Batteries marks the Rat field operations irreducible; concrete witnesses
evaluate the engine on literal inputs, so reduction of exact rational
arithmetic is re-enabled for this file.
-/
attribute [local semireducible] Rat.add Rat.mul Rat.sub Rat.inv

/-- Model of a JS runtime value as the engine manipulates them: the dynamic
"string-keyed bag of values" of SkillData and responseData. -/
inductive JVal where
  | str (s : String)
  | num (n : JNum)
  | boolv (b : Bool)
  | listv (xs : List JVal)
  | obj (fields : List (String × JVal))
  | nullv
deriving Repr

namespace JVal

/-- Property access data[key] on an object, none for absent properties. -/
def fieldLookup (k : String) : List (String × JVal) → Option JVal
  | [] => none
  | p :: ps => if p.1 = k then some p.2 else fieldLookup k ps

/-- Property access data[key] on an object, none for absent properties. -/
def getField : JVal → String → Option JVal
  | obj fs, k => fieldLookup k fs
  | _, _ => none

end JVal

/-- JS truthiness of an optional property value (undefined and null are
falsy, "" is falsy, 0 and NaN are falsy, objects and arrays are truthy). -/
def jTruthy : Option JVal → Bool
  | none => false
  | some JVal.nullv => false
  | some (JVal.str s) => s ≠ ""
  | some (JVal.num n) => n.truthy
  | some (JVal.boolv b) => b
  | some (JVal.listv _) => true
  | some (JVal.obj _) => true

/-- SkillDetectionResult of src/skills/base/SkillBase.ts. -/
structure SkillDetectionResult where
  isDetected : Bool
  data : Option JVal := none
deriving Repr

/-- SkillExecutionResult of src/skills/base/SkillBase.ts.  The skillName field
models the extra property added by the dispatcher's object spread
(SkillExecutionResult & with a skillName tag); skills themselves leave it
absent. -/
structure SkillExecutionResult where
  success : Bool
  message : Option String := none
  error : Option String := none
  requiresResponse : Option Bool := none
  responseData : Option JVal := none
  skillName : Option String := none
deriving Repr

/-- Encoding of an execution result as a JS value, used when the dispatcher
stores the per-skill result list inside the composite responseData bag. -/
def encodeResult (r : SkillExecutionResult) : JVal :=
  JVal.obj
    [("success", JVal.boolv r.success),
     ("message", match r.message with | some s => JVal.str s | none => JVal.nullv),
     ("error", match r.error with | some s => JVal.str s | none => JVal.nullv),
     ("requiresResponse", match r.requiresResponse with
        | some b => JVal.boolv b
        | none => JVal.nullv),
     ("responseData", match r.responseData with | some v => v | none => JVal.nullv),
     ("skillName", match r.skillName with | some s => JVal.str s | none => JVal.nullv)]

/-- ScheduledTask of the CronBridge (src/ai_bridge, cron bridge section of
content_analyzer.ts). -/
structure ScheduledTask where
  id : String
  originalPrompt : String
  userId : String
  scheduledAtMs : Nat
  executeAtMs : Nat
  executed : Bool
deriving Repr, DecidableEq

/-- The mutable world the engine's side effects act on: the CronBridge task
registry, the set of still-live one-shot timers (clearTimeout removes an
entry; a timer callback can only run while its entry is live), a clock, a
counter modelling the time+random task-id generator, and the log of messages
delivered through the injected onTaskComplete callback (the Telegram bot's
sendMessageToUser, which catches its own delivery failures and never
throws). -/
structure CronState where
  tasks : List (String × ScheduledTask) := []
  timers : List String := []
  nowMs : Nat := 0
  seed : Nat := 0
  sent : List (String × String) := []
deriving Repr, DecidableEq

/-- Oracle for one of the text-generation collaborator calls (sendMessageToAI
or detectSkills): a successful reply or a rejection. -/
def AIOracle := String → Except String String

/-- First-binding lookup in an association list (JS Map.get). -/
def lookupKey (taskId : String) : List (String × ScheduledTask) → Option ScheduledTask
  | [] => none
  | p :: ps => if p.1 = taskId then some p.2 else lookupKey taskId ps

namespace CronBridge

/-- Map lookup on the task registry (JS Map.get). -/
def lookupTask (st : CronState) (taskId : String) : Option ScheduledTask :=
  lookupKey taskId st.tasks

/-- Removal of a key from the registry (JS Map.delete). -/
def eraseKey (taskId : String) (l : List (String × ScheduledTask)) :
    List (String × ScheduledTask) :=
  l.filter (fun p => p.1 ≠ taskId)

/-- Map.set on the registry.  In JS an existing key keeps its position; the
engine only ever sets fresh ids or overwrites a task by its own id, so the
position of the binding is irrelevant to every verified property. -/
def setTask (taskId : String) (t : ScheduledTask)
    (l : List (String × ScheduledTask)) : List (String × ScheduledTask) :=
  eraseKey taskId l ++ [(taskId, t)]

/-- Task-id generation; the source combines Date.now() with a random suffix,
modelled here by a per-process counter (unique per process, as the spec
requires). -/
def generateTaskId (st : CronState) : String :=
  "task_" ++ toString st.nowMs ++ "_" ++ toString st.seed

/-- CronBridge.scheduleTask: registers a one-shot timer and the task entry and
returns the fresh task id synchronously. -/
def scheduleTask (st : CronState) (prompt : String) (delaySeconds : Nat)
    (userId : String) : CronState × String :=
  let taskId := generateTaskId st
  let executeAt := st.nowMs + delaySeconds * 1000
  let task : ScheduledTask :=
    { id := taskId, originalPrompt := prompt, userId := userId,
      scheduledAtMs := st.nowMs, executeAtMs := executeAt, executed := false }
  ({ st with
      tasks := setTask taskId task st.tasks,
      timers := st.timers ++ [taskId],
      seed := st.seed + 1 }, taskId)

/-- The failure message CronBridge.executeTask delivers when the AI call
rejects. -/
def cronFailureMessage : String :=
  "Désolé, une erreur s\x27est produite lors de l\x27exécution de la tâche planifiée."

/-- CronBridge.executeTask: guarded on an existing, not-yet-executed task; the
executed flag is set before the asynchronous AI call; the AI reply (or, on a
rejection, the fixed failure message) is delivered through onTaskComplete; and
the finally block deletes the entry. -/
def executeTask (ai : AIOracle) (st : CronState) (taskId : String) : CronState :=
  match lookupTask st taskId with
  | none => st
  | some task =>
    if task.executed then st
    else
      let st1 := { st with
        tasks := setTask taskId { task with executed := true } st.tasks }
      let response :=
        match ai task.originalPrompt with
        | .ok r => r
        | .error _ => cronFailureMessage
      let st2 := { st1 with sent := st1.sent ++ [(task.userId, response)] }
      { st2 with tasks := eraseKey taskId st2.tasks }

/-- The synchronous prefix of executeTask, up to and including marking the
task executed — everything that happens before the first await. -/
def executeTaskMark (st : CronState) (taskId : String) : CronState :=
  match lookupTask st taskId with
  | none => st
  | some task =>
    if task.executed then st
    else
      { st with tasks := setTask taskId { task with executed := true } st.tasks }

/-- CronBridge.cancelTask: clearTimeout on the task's timer and removal of the
entry; false on an unknown id. -/
def cancelTask (st : CronState) (taskId : String) : CronState × Bool :=
  match lookupTask st taskId with
  | none => (st, false)
  | some _ =>
    ({ st with
        timers := st.timers.filter (fun i => i ≠ taskId),
        tasks := eraseKey taskId st.tasks }, true)

/-- The event loop firing the one-shot timer of a task: the callback
registered by setTimeout runs only if the timer is still live (clearTimeout
prevents it), and a timer fires at most once. -/
def fireTimer (ai : AIOracle) (st : CronState) (taskId : String) : CronState :=
  if st.timers.contains taskId then
    executeTask ai { st with timers := st.timers.filter (fun i => i ≠ taskId) } taskId
  else st

/-- CronBridge.getAllTasks. -/
def getAllTasks (st : CronState) : List ScheduledTask :=
  st.tasks.map (fun p => p.2)

/-- CronBridge.getUserTasks. -/
def getUserTasks (st : CronState) (userId : String) : List ScheduledTask :=
  (getAllTasks st).filter (fun t => t.userId == userId)

end CronBridge

/-- SkillBase of src/skills/base/SkillBase.ts: a named capability with a pure
detection function and an effectful execute.  execute takes the parsed data
bag and the user id; the message-sending capability it receives is modelled
at the dispatcher (a skill is only executed when the capability is present),
and its effects on the world are part of the CronState transition.  A thrown
exception is the .error case.  validateData is the optional hook of the
abstract class; the optional formatMessage hook is never called anywhere in
the repository and is omitted. -/
structure SkillBase where
  name : String
  description : String := ""
  detectSkill : String → SkillDetectionResult
  execute : JVal → String → CronState → Except String SkillExecutionResult × CronState
  validateData : Option (JVal → Bool) := none

/-- SkillRegistration of SkillManager.ts. -/
structure SkillRegistration where
  skill : SkillBase
  enabled : Bool

/-- DetectedSkill of SkillManager.ts. -/
structure DetectedSkill where
  skill : SkillBase
  data : JVal
  skillName : String

/-- MultiSkillExecutionResult of SkillManager.ts; a row of results carries its
skillName through the optional tag field. -/
structure MultiSkillExecutionResult where
  results : List SkillExecutionResult
  combinedMessage : String
  allSuccessful : Bool
deriving Repr

/-- Result of SkillManager.executePromptWithSkills. -/
structure ChainOutcome where
  response : String
  skillsUsed : List String
deriving Repr, DecidableEq

/-- JS truthiness of an optional string (undefined and "" are falsy), the
test performed by the dispatchers before using result.message. -/
def strTruthy : Option String → Bool
  | none => false
  | some s => s ≠ ""

/-- The accumulation step acc += (acc ? sep : empty) + msg with a blank-line
separator, shared by both dispatcher modes. -/
def appendSep (acc msg : String) : String :=
  if acc = "" then msg else acc ++ "\n\n" ++ msg

/-- String interpolation of a possibly absent error value, as a JS template
literal renders it. -/
def optErrToString : Option String → String
  | some s => s
  | none => "undefined"

namespace SkillManager

/-- SkillManager.detectAllSkills: the [NO_SKILL] sentinel short-circuits to
the empty list; otherwise every enabled skill's detectSkill is tried against
the same full text, in registration order, and matches are collected in the
order they are found. -/
def detectAllSkills (reg : List SkillRegistration) (skillDetection : String) :
    List DetectedSkill :=
  if containsStr skillDetection "[NO_SKILL]" then []
  else
    reg.foldl
      (fun acc r =>
        if r.enabled then
          let d := r.skill.detectSkill skillDetection
          if d.isDetected then
            acc ++ [{ skill := r.skill, data := d.data.getD JVal.nullv,
                      skillName := r.skill.name }]
          else acc
        else acc)
      []

/-- One iteration of the loop of SkillManager.executeMultipleSkills. -/
def multiStep (userId : String) (senderPresent : Bool)
    (acc : MultiSkillExecutionResult × CronState) (detected : DetectedSkill) :
    MultiSkillExecutionResult × CronState :=
  let m := acc.1
  let w := acc.2
  if !senderPresent then
    ({ m with
        results := m.results ++
          [{ success := false,
             error := some ("Le skill " ++ detected.skillName ++
               " nécessite une capacité d\x27envoi de messages valide"),
             skillName := some detected.skillName }],
        allSuccessful := false }, w)
  else
    match detected.skill.execute detected.data userId w with
    | (.ok result, w2) =>
      let m2 := { m with
        results := m.results ++ [{ result with skillName := some detected.skillName }] }
      if result.success then
        if strTruthy result.message then
          ({ m2 with
              combinedMessage := appendSep m.combinedMessage (result.message.getD "") },
            w2)
        else (m2, w2)
      else ({ m2 with allSuccessful := false }, w2)
    | (.error _, w2) =>
      ({ m with
          results := m.results ++
            [{ success := false,
               error := some ("Erreur lors de l\x27exécution du skill " ++
                 detected.skillName),
               skillName := some detected.skillName }],
          allSuccessful := false }, w2)

/-- SkillManager.executeMultipleSkills: runs the detected skills in order; a
missing message-sending capability short-circuits a skill to an error entry
without executing it; successful messages are concatenated blank-line
separated; allSuccessful is the conjunction over all entries. -/
def executeMultipleSkills (detectedSkills : List DetectedSkill)
    (senderPresent : Bool) (userId : String) (w : CronState) :
    MultiSkillExecutionResult × CronState :=
  detectedSkills.foldl (multiStep userId senderPresent)
    ({ results := [], combinedMessage := "", allSuccessful := true }, w)

/-- SkillManager.processSkillDetection: detect, execute all in sequence, and
either return the single row unwrapped or wrap everything in the composite
multiSkill result. -/
def processSkillDetection (reg : List SkillRegistration) (skillDetection : String)
    (senderPresent : Bool) (userId : String) (w : CronState) :
    Option SkillExecutionResult × CronState :=
  let detectedSkills := detectAllSkills reg skillDetection
  if detectedSkills.length = 0 then (none, w)
  else
    let r := executeMultipleSkills detectedSkills senderPresent userId w
    let multi := r.1
    if multi.results.length = 1 then (multi.results.head?, r.2)
    else
      (some
        { success := multi.allSuccessful,
          message := some multi.combinedMessage,
          requiresResponse := some true,
          responseData := some (JVal.obj
            [("multiSkill", JVal.boolv true),
             ("skillNames", JVal.listv (detectedSkills.map (fun d => JVal.str d.skillName))),
             ("results", JVal.listv (multi.results.map encodeResult))]) },
        r.2)

/-- One iteration of the chained loop of SkillManager.executePromptWithSkills:
push the skill name, then append the labeled block for its outcome to the
accumulated context (nothing is appended for a success without a message). -/
def chainStep (userId : String) (acc : List String × String × CronState)
    (detected : DetectedSkill) : List String × String × CronState :=
  let names := acc.1 ++ [detected.skillName]
  let ctx := acc.2.1
  match detected.skill.execute detected.data userId acc.2.2 with
  | (.ok result, w2) =>
    if result.success then
      if strTruthy result.message then
        (names, appendSep ctx ("[" ++ detected.skillName ++ "]: " ++
          result.message.getD ""), w2)
      else (names, ctx, w2)
    else
      (names, appendSep ctx ("[" ++ detected.skillName ++ "] ERREUR: " ++
        optErrToString result.error), w2)
  | (.error e, w2) =>
    (names, appendSep ctx ("[" ++ detected.skillName ++ "] ERREUR: " ++ e), w2)

/-- The final synthesis prompt of executePromptWithSkills. -/
def mkFinalPrompt (prompt accumulatedContext : String) : String :=
  "L\x27utilisateur avait demandé: \"" ++ prompt ++
  "\"\n\nVoici les informations récupérées:\n" ++ accumulatedContext ++
  "\n\nRéponds à l\x27utilisateur de manière naturelle et concise avec ces informations."

/-- SkillManager.executePromptWithSkills (the chained/contextual mode): a
fresh detection via the detectSkills collaborator; with no skill detected,
the plain conversational call answers with an empty skills-used list;
otherwise skills run strictly in sequence accumulating labeled blocks, and
the accumulated context (when non-empty) is synthesized by one final
conversational call; an empty context yields the generic acknowledgement.  A
collaborator rejection propagates as .error. -/
def executePromptWithSkills (detectOr ai : AIOracle) (reg : List SkillRegistration)
    (prompt userId : String) (w : CronState) :
    Except String ChainOutcome × CronState :=
  match detectOr prompt with
  | .error e => (.error e, w)
  | .ok skillDetection =>
    let detectedSkills := detectAllSkills reg skillDetection
    if detectedSkills.length = 0 then
      match ai prompt with
      | .error e => (.error e, w)
      | .ok resp => (.ok { response := resp, skillsUsed := [] }, w)
    else
      let r := detectedSkills.foldl (chainStep userId) ([], "", w)
      if r.2.1 = "" then
        (.ok { response := "La tâche a été exécutée.", skillsUsed := r.1 }, r.2.2)
      else
        match ai (mkFinalPrompt prompt r.2.1) with
        | .error e => (.error e, r.2.2)
        | .ok resp => (.ok { response := resp, skillsUsed := r.1 }, r.2.2)

end SkillManager

namespace CronSkill

/-- CronSkill.detectSkill: the [SKILL: cron] tag, a quoted Prompt field and a
Délai field with unit s/m/h must all be present; any missing or malformed
field yields "not detected".  The switch over the unit carries the source's
defensive default branch (unreachable given the regex) returning "not
detected". -/
def detectSkill (skillDetection : String) : SkillDetectionResult :=
  if !hasTag ("cron".data) skillDetection.data then { isDetected := false }
  else
    match findQuoted "Prompt" skillDetection, findDelay skillDetection with
    | some p, some (n, 's') =>
      { isDetected := true,
        data := some (JVal.obj
          [("prompt", JVal.str p),
           ("delaySeconds", JVal.num (JNum.fin (n : Rat)))]) }
    | some p, some (n, 'm') =>
      { isDetected := true,
        data := some (JVal.obj
          [("prompt", JVal.str p),
           ("delaySeconds", JVal.num (JNum.fin ((n * 60 : Nat) : Rat)))]) }
    | some p, some (n, 'h') =>
      { isDetected := true,
        data := some (JVal.obj
          [("prompt", JVal.str p),
           ("delaySeconds", JVal.num (JNum.fin ((n * 60 * 60 : Nat) : Rat)))]) }
    | some _, some _ => { isDetected := false }
    | _, _ => { isDetected := false }

/-- CronSkill.validateData: prompt truthy, delaySeconds a number, and
delaySeconds > 0.  A pure function of the data bag. -/
def validateData (data : JVal) : Bool :=
  jTruthy (data.getField "prompt") &&
    (match data.getField "delaySeconds" with
     | some (JVal.num n) => n.gtZero
     | _ => false)

/-- CronSkill.formatDelay. -/
def formatDelay (seconds : Nat) : String :=
  if seconds < 60 then
    toString seconds ++ " seconde" ++ (if seconds > 1 then "s" else "")
  else if seconds < 3600 then
    let minutes := seconds / 60
    toString minutes ++ " minute" ++ (if minutes > 1 then "s" else "")
  else
    let hours := seconds / 3600
    toString hours ++ " heure" ++ (if hours > 1 then "s" else "")

/-- The confirmation prompt CronSkill.execute sends to the AI. -/
def confirmPrompt (delayText : String) : String :=
  "L\x27utilisateur a demandé un rappel. Confirme-lui brièvement que tu lui enverras un message dans " ++
    delayText ++ "."

/-- Extraction of the numeric delay from the data bag.  validateData
guarantees a positive number before this is used; every value the detector
can build is a whole number of seconds, which the Nat-valued clock model
requires. -/
def delayOf (data : JVal) : Nat :=
  match data.getField "delaySeconds" with
  | some (JVal.num (JNum.fin q)) => (max q.num 0).toNat / q.den
  | _ => 0

/-- Extraction of the prompt from the data bag (always a string in every
reachable data bag, built by detectSkill). -/
def promptOf (data : JVal) : String :=
  match data.getField "prompt" with
  | some (JVal.str s) => s
  | _ => ""

/-- CronSkill.execute: invalid data yields the validation error result with
no side effect; otherwise the task is scheduled (the side effect), and the
AI confirmation is requested — a rejection there is caught and converted to
the planning error result, with the already-scheduled task left standing (no
rollback). -/
def execute (ai : AIOracle) (data : JVal) (userId : String) (w : CronState) :
    Except String SkillExecutionResult × CronState :=
  if !validateData data then
    (.ok { success := false, error := some "Données invalides pour le skill cron" }, w)
  else
    let delaySeconds := delayOf data
    let r := CronBridge.scheduleTask w (promptOf data) delaySeconds userId
    let delayText := formatDelay delaySeconds
    match ai (confirmPrompt delayText) with
    | .ok confirmation =>
      (.ok { success := true, message := some confirmation,
             requiresResponse := some true,
             responseData := some (JVal.obj
               [("taskId", JVal.str r.2), ("delayText", JVal.str delayText)]) },
        r.1)
    | .error _ =>
      (.ok { success := false,
             error := some "Erreur lors de la planification de la tâche" }, r.1)

/-- The cron skill as registered in the SkillManager. -/
def skill (ai : AIOracle) : SkillBase :=
  { name := "cron",
    description := "Planifie des rappels et des tâches différées",
    detectSkill := detectSkill,
    execute := execute ai,
    validateData := some validateData }

end CronSkill

namespace CalculatorSkill

/-- String.prototype.split on a comma. -/
def splitComma (s : String) : List String :=
  let step := s.data.foldl
    (fun (acc : List String × List Char) c =>
      if c = ',' then (acc.1 ++ [String.mk acc.2], [])
      else (acc.1, acc.2 ++ [c]))
    ([], [])
  step.1 ++ [String.mk step.2]

/-- String.prototype.trim (whitespace from both ends). -/
def trimStr (s : String) : String :=
  String.mk ((skipWs s.data).reverse.dropWhile isWsChar).reverse

/-- Decimal value with an integer digit part and a fraction digit part. -/
def decValue (ipart fpart : List Char) : Rat :=
  (digitsToNat ipart : Rat) + (digitsToNat fpart : Rat) / ((10 : Rat) ^ fpart.length)

/-- Model of JS parseFloat (sign, digits, optional decimal point; the engine
never feeds it exponents).  An input with no numeric prefix is NaN. -/
def parseFloatJ (s : String) : JNum :=
  let l := skipWs s.data
  let sign : Rat := match l with | '-' :: _ => -1 | _ => 1
  let l2 := match l with
    | '-' :: r => r
    | '+' :: r => r
    | r => r
  match takeDigits l2 with
  | ([], rest) =>
    match rest with
    | '.' :: r =>
      (match takeDigits r with
       | ([], _) => JNum.nan
       | (fs, _) => JNum.fin (sign * decValue [] fs))
    | _ => JNum.nan
  | (ds, rest) =>
    match rest with
    | '.' :: r =>
      let fr := takeDigits r
      JNum.fin (sign * decValue ds fr.1)
    | _ => JNum.fin (sign * decValue ds [])

/-- Leftmost search for Numbers:\s*\[([^\]]+)\] (case-insensitive on the
key), returning the raw capture between the brackets. -/
def numbersAt (l : List Char) : Option String :=
  match matchChars ("numbers:".data) l with
  | none => none
  | some rest =>
    match skipWs rest with
    | '[' :: rest2 =>
      match rest2.takeWhile (fun c => c ≠ ']') with
      | [] => none
      | cap =>
        if (rest2.dropWhile (fun c => c ≠ ']')).head? = some ']' then
          some (String.mk cap)
        else none
    | _ => none

/-- Search a string for the Numbers field pattern. -/
def findNumbers : List Char → Option String
  | [] => none
  | c :: cs =>
    match numbersAt (c :: cs) with
    | some r => some r
    | none => findNumbers cs

/-- getOperatorSymbol of CalculatorSkill. -/
def getOperatorSymbol (operation : String) : String :=
  if operation = "add" then "+"
  else if operation = "subtract" then "-"
  else if operation = "multiply" then "×"
  else if operation = "divide" then "÷"
  else operation

/-- JS number-to-string for display (Array.prototype.join), exact for every
number the calculator's parseFloat can produce. -/
def jnumDisplayAux (fuel : Nat) (q : Rat) : String :=
  match fuel with
  | 0 => ""
  | Nat.succ f =>
    if q = 0 then ""
    else
      let q10 := q * 10
      let d := q10.floor
      toString d ++ jnumDisplayAux f (q10 - (d : Rat))

/-- Display of a JS number as String(n) renders it on the values reachable
here (finite decimals, infinities, NaN). -/
def jnumDisplay : JNum → String
  | JNum.nan => "NaN"
  | JNum.inf true => "Infinity"
  | JNum.inf false => "-Infinity"
  | JNum.fin q =>
    if q.den = 1 then toString q.num
    else
      (if q < 0 then "-" else "") ++
        toString (|q|).floor ++ "." ++ jnumDisplayAux 40 (|q| - ((|q|).floor : Rat))

/-- Number.prototype.toFixed with two digits, on rationals (rounding half
away from zero; the verified inputs never hit a tie). -/
def toFixed2 : JNum → String
  | JNum.nan => "NaN"
  | JNum.inf true => "Infinity"
  | JNum.inf false => "-Infinity"
  | JNum.fin q =>
    let m := |q| * 100
    let r := (m + 1 / 2).floor
    (if q < 0 then "-" else "") ++ toString (r / 100) ++ "." ++
      (if r % 100 < 10 then "0" else "") ++ toString (r % 100)

/-- CalculatorSkill.detectSkill: the [SKILL: calculator] tag followed either
by a quoted Expression (evaluate mode) or by an Operation among the four
known ones together with a Numbers list. -/
def detectSkill (skillDetection : String) : SkillDetectionResult :=
  if !hasTag ("calculator".data) skillDetection.data then { isDetected := false }
  else
    match findQuoted "Expression" skillDetection with
    | some expr =>
      { isDetected := true,
        data := some (JVal.obj
          [("expression", JVal.str expr), ("operation", JVal.str "evaluate")]) }
    | none =>
      match findQuoted "Operation" skillDetection, findNumbers skillDetection.data with
      | some op, some numsRaw =>
        let operation := String.map caseFold op
        if ["add", "subtract", "multiply", "divide"].contains operation then
          let numbers := (splitComma numsRaw).map (fun n => parseFloatJ (trimStr n))
          { isDetected := true,
            data := some (JVal.obj
              [("operation", JVal.str operation),
               ("numbers", JVal.listv (numbers.map JVal.num)),
               ("expression", JVal.str (String.intercalate
                 (" " ++ getOperatorSymbol operation ++ " ")
                 (numbers.map jnumDisplay)))]) }
        else { isDetected := false }
      | _, _ => { isDetected := false }

/-- The strict comparison operation === with the string evaluate (false on
absent or non-string operations). -/
def isEvalOp (data : JVal) : Bool :=
  match data.getField "operation" with
  | some (JVal.str o) => o = "evaluate"
  | _ => false

/-- CalculatorSkill.validateData: a truthy operation; in evaluate mode a
truthy string expression; otherwise an array of at least two numbers, none of
them NaN. -/
def validateData (data : JVal) : Bool :=
  if !jTruthy (data.getField "operation") then false
  else if isEvalOp data then
    match data.getField "expression" with
    | some (JVal.str e) => e ≠ ""
    | _ => false
  else
    match data.getField "numbers" with
    | some (JVal.listv xs) =>
      decide (xs.length ≥ 2) &&
        xs.all (fun v =>
          match v with
          | JVal.num JNum.nan => false
          | JVal.num _ => true
          | _ => false)
    | _ => false

/-- Characters surviving the sanitizer replace of evaluateExpression (the
class [^0-9+\-*/().\s] is removed). -/
def keepCalcChar (c : Char) : Bool :=
  c.isDigit || c = '+' || c = '-' || c = '*' || c = '/' ||
    c = '(' || c = ')' || c = '.' || isWsChar c

/-- Modes of the recursive-descent evaluator for the sanitized arithmetic
expression (the JS engine's own grammar restricted to the surviving
characters): sums, products, and signed atoms. -/
inductive ParseMode where
  | expr
  | exprLoop (acc : JNum)
  | term
  | termLoop (acc : JNum)
  | factor

/-- Number literal at the head of the input: digits with an optional fraction
("2", "2.", "2.5", ".5"). -/
def parseNumber (l : List Char) : Option (JNum × List Char) :=
  match takeDigits l with
  | ([], rest) =>
    match rest with
    | '.' :: r =>
      (match takeDigits r with
       | ([], _) => none
       | (fs, r2) => some (JNum.fin (decValue [] fs), r2))
    | _ => none
  | (ds, rest) =>
    match rest with
    | '.' :: r =>
      let fr := takeDigits r
      some (JNum.fin (decValue ds fr.1), fr.2)
    | _ => some (JNum.fin (decValue ds []), rest)

/-- Fuel-indexed evaluator for the sanitized expression, with JS number
semantics for the four operators. -/
def parseRun : Nat → ParseMode → List Char → Option (JNum × List Char)
  | 0, _, _ => none
  | Nat.succ fuel, mode, l =>
    match mode with
    | ParseMode.expr =>
      match parseRun fuel ParseMode.term l with
      | some (v, r) => parseRun fuel (ParseMode.exprLoop v) r
      | none => none
    | ParseMode.exprLoop acc =>
      match skipWs l with
      | '+' :: r =>
        (match parseRun fuel ParseMode.term r with
         | some (v, r2) => parseRun fuel (ParseMode.exprLoop (acc.add v)) r2
         | none => none)
      | '-' :: r =>
        (match parseRun fuel ParseMode.term r with
         | some (v, r2) => parseRun fuel (ParseMode.exprLoop (acc.sub v)) r2
         | none => none)
      | _ => some (acc, l)
    | ParseMode.term =>
      match parseRun fuel ParseMode.factor l with
      | some (v, r) => parseRun fuel (ParseMode.termLoop v) r
      | none => none
    | ParseMode.termLoop acc =>
      match skipWs l with
      | '*' :: r =>
        (match parseRun fuel ParseMode.factor r with
         | some (v, r2) => parseRun fuel (ParseMode.termLoop (acc.mul v)) r2
         | none => none)
      | '/' :: r =>
        (match parseRun fuel ParseMode.factor r with
         | some (v, r2) => parseRun fuel (ParseMode.termLoop (acc.div v)) r2
         | none => none)
      | _ => some (acc, l)
    | ParseMode.factor =>
      match skipWs l with
      | '+' :: r => parseRun fuel ParseMode.factor r
      | '-' :: r =>
        (match parseRun fuel ParseMode.factor r with
         | some (v, r2) => some (v.neg, r2)
         | none => none)
      | '(' :: r =>
        (match parseRun fuel ParseMode.expr r with
         | some (v, r2) =>
           (match skipWs r2 with
            | ')' :: r3 => some (v, r3)
            | _ => none)
         | none => none)
      | rest => parseNumber rest

/-- CalculatorSkill.evaluateExpression: sanitize, apply the (vacuous after
sanitizing) forbidden-token check, evaluate; a string the JS engine would
reject is the "Expression invalide" error. -/
def evaluateExpression (expression : String) : Except String JNum :=
  let sanitized := expression.data.filter keepCalcChar
  if containsList ("Math".data) sanitized || containsList ("eval".data) sanitized ||
      containsList ("function".data) sanitized then
    .error "Expression non autorisée"
  else
    match parseRun (sanitized.length * 2 + 8) ParseMode.expr sanitized with
    | some (v, rest) =>
      if (skipWs rest).isEmpty then .ok v else .error "Expression invalide"
    | none => .error "Expression invalide"

/-- CalculatorSkill.performOperation over JS numbers; reduce over an empty
array (impossible after validation) and division by zero are the thrown
errors. -/
def performOperation (operation : String) (numbers : List JNum) :
    Except String JNum :=
  if operation = "add" then .ok (numbers.foldl JNum.add (JNum.fin 0))
  else if operation = "subtract" then
    match numbers with
    | [] => .error "Reduce of empty array with no initial value"
    | x :: xs => .ok (xs.foldl JNum.sub x)
  else if operation = "multiply" then .ok (numbers.foldl JNum.mul (JNum.fin 1))
  else if operation = "divide" then
    match numbers with
    | [] => .error "Reduce of empty array with no initial value"
    | x :: xs =>
      xs.foldlM (fun a b =>
        if b = JNum.fin 0 then Except.error "Division par zéro"
        else Except.ok (a.div b)) x
  else .error "Opération non reconnue"

/-- CalculatorSkill.formatCalculationResult. -/
def formatCalculationResult (expression : String) (result : JNum) : String :=
  let formattedResult :=
    if result.isInteger then jnumDisplay result else toFixed2 result
  "🧮 **Calculatrice**\n\n" ++ "**Expression**: " ++ expression ++
    "\n**Résultat**: " ++ formattedResult

/-- CalculatorSkill.execute: validation first (no side effect either way —
the calculator touches no shared state), then evaluation or the operation on
the numbers, with every internal failure caught and converted to the fixed
calculation error result. -/
def execute (data : JVal) (_userId : String) (w : CronState) :
    Except String SkillExecutionResult × CronState :=
  if !validateData data then
    (.ok { success := false,
           error := some "Données invalides pour le skill calculator" }, w)
  else
    let expression :=
      match data.getField "expression" with
      | some (JVal.str e) => e
      | _ => ""
    let computed :=
      if isEvalOp data then
        evaluateExpression expression
      else
        performOperation
          (match data.getField "operation" with
           | some (JVal.str o) => o
           | _ => "")
          (match data.getField "numbers" with
           | some (JVal.listv xs) =>
             xs.map (fun v => match v with | JVal.num n => n | _ => JNum.nan)
           | _ => [])
    match computed with
    | .ok result =>
      (.ok { success := true,
             message := some (formatCalculationResult expression result),
             requiresResponse := some true,
             responseData := some (JVal.obj
               [("expression", JVal.str expression),
                ("result", JVal.num result),
                ("skillName", JVal.str "calculator")]) }, w)
    | .error _ =>
      (.ok { success := false,
             error := some "❌ Erreur lors du calcul. Vérifiez l\x27expression mathématique." },
        w)

/-- The calculator skill as registered in the SkillManager. -/
def skill : SkillBase :=
  { name := "calculator",
    description := "Effectue des calculs mathématiques simples",
    detectSkill := detectSkill,
    execute := execute,
    validateData := some validateData }

end CalculatorSkill

/-- Modelled from the spec (§4.5): the timer callback as the specification
describes it, invoking the full chained-dispatch pipeline (§4.4 mode 2,
executePromptWithSkills) with the stored prompt and user id, delivering the
synthesized text or the fixed failure message, then deleting the entry.  The
source's CronBridge.executeTask instead calls the plain conversational
sendMessageToAI; this definition exists only to exhibit the difference. -/
def executeTaskSpecModelled (detectOr ai : AIOracle) (reg : List SkillRegistration)
    (st : CronState) (taskId : String) : CronState :=
  match CronBridge.lookupTask st taskId with
  | none => st
  | some task =>
    if task.executed then st
    else
      let st1 := { st with
        tasks := CronBridge.setTask taskId { task with executed := true } st.tasks }
      let r := SkillManager.executePromptWithSkills detectOr ai reg
        task.originalPrompt task.userId st1
      let response :=
        match r.1 with
        | .ok c => c.response
        | .error _ => CronBridge.cronFailureMessage
      let st2 := { r.2 with sent := r.2.sent ++ [(task.userId, response)] }
      { st2 with tasks := CronBridge.eraseKey taskId st2.tasks }

/-
Concrete fixtures used by witnesses and counterexamples.
-/

/-- A collaborator oracle answering PLAIN to the prompt "ping" and SYNTH to
everything else (so the plain conversational call and the synthesis call are
distinguishable). -/
def aiPlainSynth : AIOracle :=
  fun p => if p = "ping" then .ok "PLAIN" else .ok "SYNTH"

/-- A collaborator oracle that always succeeds with a fixed confirmation. -/
def aiOk : AIOracle := fun _ => .ok "ok"

/-- A collaborator oracle that always rejects. -/
def aiFail : AIOracle := fun _ => .error "boom"

/-- A synthetic test skill: detected whenever its tag occurs in the text,
executing to a fixed successful message, touching no state. -/
def mkTestSkill (nm msg : String) : SkillBase :=
  { name := nm,
    description := "test skill",
    detectSkill := fun s =>
      if containsStr s ("[SKILL: " ++ nm ++ "]") then
        { isDetected := true, data := some (JVal.obj []) }
      else { isDetected := false },
    execute := fun _ _ w =>
      (.ok { success := true, message := some msg, requiresResponse := some true }, w),
    validateData := none }

/-- A synthetic skill whose validateData always rejects while its execute
succeeds — the probe showing the dispatcher never consults validateData. -/
def invalidButRunnableSkill : SkillBase :=
  { name := "bad",
    description := "test skill",
    detectSkill := fun _ => { isDetected := true, data := some (JVal.obj []) },
    execute := fun _ _ w => (.ok { success := true, message := some "RAN" }, w),
    validateData := some (fun _ => false) }

/-- The state holding one freshly scheduled task for the prompt ping. -/
def pingState : CronState :=
  (CronBridge.scheduleTask {} "ping" 5 "u1").1

/-- The id of the task scheduled in pingState. -/
def pingId : String := (CronBridge.scheduleTask {} "ping" 5 "u1").2

/-- A one-skill registry detecting on anything (used to drive the
spec-modelled pipeline in the comparison for the scheduled bridge). -/
def s1Reg : List SkillRegistration :=
  [{ skill := mkTestSkill "s1" "FACT", enabled := true }]

/-- An oracle for the detection collaborator returning an annotation text
that triggers the s1 test skill. -/
def detectS1 : AIOracle := fun _ => .ok "[SKILL: s1] go"


section MapLemmas

lemma lookupKey_eraseKey_self (taskId : String) (l : List (String × ScheduledTask)) :
    lookupKey taskId (CronBridge.eraseKey taskId l) = none := by
  induction l with
  | nil => rfl
  | cons p ps ih =>
    rw [CronBridge.eraseKey, List.filter_cons]
    by_cases hp : p.1 = taskId
    · rw [if_neg (by simp [hp])]
      exact ih
    · rw [if_pos (by simp [hp])]
      rw [lookupKey, if_neg hp]
      exact ih

lemma lookupKey_append_left_none {taskId : String}
    {l1 l2 : List (String × ScheduledTask)}
    (h : lookupKey taskId l1 = none) :
    lookupKey taskId (l1 ++ l2) = lookupKey taskId l2 := by
  induction l1 with
  | nil => rfl
  | cons p ps ih =>
    rw [lookupKey] at h
    by_cases hp : p.1 = taskId
    · rw [if_pos hp] at h
      exact absurd h (by simp)
    · rw [if_neg hp] at h
      rw [List.cons_append, lookupKey, if_neg hp]
      exact ih h

lemma lookupKey_setTask_self (taskId : String) (t : ScheduledTask)
    (l : List (String × ScheduledTask)) :
    lookupKey taskId (CronBridge.setTask taskId t l) = some t := by
  unfold CronBridge.setTask
  rw [lookupKey_append_left_none (lookupKey_eraseKey_self taskId l)]
  simp [lookupKey]

lemma eraseKey_setTask (taskId : String) (t : ScheduledTask)
    (l : List (String × ScheduledTask)) :
    CronBridge.eraseKey taskId (CronBridge.setTask taskId t l) =
      CronBridge.eraseKey taskId l := by
  unfold CronBridge.setTask CronBridge.eraseKey
  rw [List.filter_append, List.filter_filter]
  simp

lemma contains_filter_ne (l : List String) (taskId : String) :
    (l.filter (fun i => i ≠ taskId)).contains taskId = false := by
  induction l with
  | nil => rfl
  | cons x xs ih =>
    rw [List.filter_cons]
    by_cases hx : x = taskId
    · rw [if_neg (by simp [hx])]
      exact ih
    · rw [if_pos (by simp [hx])]
      simp [List.contains, Ne.symm hx, ih]

end MapLemmas

section CronLifecycle

/-- The delivered text for one fired task: the AI reply, or the fixed failure
message on a rejection. -/
def firedResponse (ai : AIOracle) (prompt : String) : String :=
  match ai prompt with
  | .ok r => r
  | .error _ => CronBridge.cronFailureMessage

lemma executeTask_none {ai : AIOracle} {st : CronState} {taskId : String}
    (h : CronBridge.lookupTask st taskId = none) :
    CronBridge.executeTask ai st taskId = st := by
  simp [CronBridge.executeTask, CronBridge.lookupTask] at h ⊢
  simp [h]

lemma executeTask_executed {ai : AIOracle} {st : CronState} {taskId : String}
    {t : ScheduledTask} (h : CronBridge.lookupTask st taskId = some t)
    (he : t.executed = true) :
    CronBridge.executeTask ai st taskId = st := by
  simp [CronBridge.lookupTask] at h
  simp [CronBridge.executeTask, CronBridge.lookupTask, h, he]

lemma executeTask_fired (ai : AIOracle) {st : CronState} {taskId : String}
    {t : ScheduledTask} (h : CronBridge.lookupTask st taskId = some t)
    (he : t.executed = false) :
    (CronBridge.executeTask ai st taskId).tasks = CronBridge.eraseKey taskId st.tasks ∧
    (CronBridge.executeTask ai st taskId).sent =
      st.sent ++ [(t.userId, firedResponse ai t.originalPrompt)] ∧
    (CronBridge.executeTask ai st taskId).timers = st.timers := by
  simp [CronBridge.lookupTask] at h
  cases hai : ai t.originalPrompt <;>
    simp [CronBridge.executeTask, CronBridge.lookupTask, h, he, eraseKey_setTask,
      firedResponse, hai]

lemma lookupTask_after_fired (ai : AIOracle) {st : CronState} {taskId : String}
    {t : ScheduledTask} (h : CronBridge.lookupTask st taskId = some t)
    (he : t.executed = false) :
    CronBridge.lookupTask (CronBridge.executeTask ai st taskId) taskId = none := by
  rw [CronBridge.lookupTask, (executeTask_fired ai h he).1]
  exact lookupKey_eraseKey_self taskId st.tasks

lemma bool_not_true {b : Bool} (h : ¬b = true) : b = false := by
  cases b
  · rfl
  · exact absurd rfl h

lemma executeTask_mark_noop (ai : AIOracle) (st : CronState) (taskId : String) :
    CronBridge.executeTask ai (CronBridge.executeTaskMark st taskId) taskId =
      CronBridge.executeTaskMark st taskId := by
  rcases h : CronBridge.lookupTask st taskId with _ | t
  · have hm : CronBridge.executeTaskMark st taskId = st := by
      simp [CronBridge.lookupTask] at h
      simp [CronBridge.executeTaskMark, CronBridge.lookupTask, h]
    rw [hm]
    exact executeTask_none h
  · by_cases he : t.executed = true
    · have hm : CronBridge.executeTaskMark st taskId = st := by
        simp [CronBridge.lookupTask] at h
        simp [CronBridge.executeTaskMark, CronBridge.lookupTask, h, he]
      rw [hm]
      exact executeTask_executed h he
    · have he2 := bool_not_true he
      have hm : CronBridge.executeTaskMark st taskId =
          { st with
            tasks := CronBridge.setTask taskId { t with executed := true } st.tasks } := by
        simp [CronBridge.lookupTask] at h
        simp [CronBridge.executeTaskMark, CronBridge.lookupTask, h, he2]
      rw [hm]
      have hl : lookupKey taskId
          (CronBridge.setTask taskId { t with executed := true } st.tasks) =
          some { t with executed := true } := lookupKey_setTask_self ..
      exact executeTask_executed hl rfl

lemma cancelTask_found {st : CronState} {taskId : String} {t : ScheduledTask}
    (h : CronBridge.lookupTask st taskId = some t) :
    CronBridge.cancelTask st taskId =
      ({ st with
          timers := st.timers.filter (fun i => i ≠ taskId),
          tasks := CronBridge.eraseKey taskId st.tasks }, true) := by
  simp [CronBridge.lookupTask] at h
  simp [CronBridge.cancelTask, CronBridge.lookupTask, h]

lemma cancelTask_missing {st : CronState} {taskId : String}
    (h : CronBridge.lookupTask st taskId = none) :
    CronBridge.cancelTask st taskId = (st, false) := by
  simp [CronBridge.lookupTask] at h
  simp [CronBridge.cancelTask, CronBridge.lookupTask, h]

end CronLifecycle

/-- C1: a scheduled task's firing callback is effective at most once.  The
callback is a no-op for an id absent from the registry and for a task already
marked executed; since marking happens in the synchronous prefix of the
callback (executeTaskMark), any re-entrant or duplicate callback arriving
once the prefix has run is a no-op; firing twice equals firing once; firing
after a successful cancellation is a no-op, and cancellation after a fire
returns false — firing and cancellation are mutually exclusive terminal
transitions. -/
theorem cron_task_fires_at_most_once (ai : AIOracle) (st : CronState) (taskId : String) :
    (CronBridge.lookupTask st taskId = none →
      CronBridge.executeTask ai st taskId = st) ∧
    (∀ t, CronBridge.lookupTask st taskId = some t → t.executed = true →
      CronBridge.executeTask ai st taskId = st) ∧
    CronBridge.executeTask ai (CronBridge.executeTaskMark st taskId) taskId =
      CronBridge.executeTaskMark st taskId ∧
    CronBridge.executeTask ai (CronBridge.executeTask ai st taskId) taskId =
      CronBridge.executeTask ai st taskId ∧
    ((CronBridge.cancelTask st taskId).2 = true →
      CronBridge.executeTask ai (CronBridge.cancelTask st taskId).1 taskId =
        (CronBridge.cancelTask st taskId).1) ∧
    (∀ t, CronBridge.lookupTask st taskId = some t → t.executed = false →
      (CronBridge.cancelTask (CronBridge.executeTask ai st taskId) taskId).2 = false) := by
  refine ⟨fun h => executeTask_none h, fun t h he => executeTask_executed h he,
    executeTask_mark_noop ai st taskId, ?_, ?_, ?_⟩
  · rcases h : CronBridge.lookupTask st taskId with _ | t
    · rw [executeTask_none h, executeTask_none h]
    · by_cases he : t.executed = true
      · rw [executeTask_executed h he, executeTask_executed h he]
      · exact executeTask_none (lookupTask_after_fired ai h (bool_not_true he))
  · intro hc
    rcases h : CronBridge.lookupTask st taskId with _ | t
    · rw [cancelTask_missing h] at hc
      simp at hc
    · rw [cancelTask_found h]
      refine executeTask_none ?_
      show lookupKey taskId (CronBridge.eraseKey taskId st.tasks) = none
      exact lookupKey_eraseKey_self taskId st.tasks
  · intro t h he
    have hnone := lookupTask_after_fired ai h he
    rw [cancelTask_missing hnone]

/-- Witness for C1: for a concretely scheduled task, firing twice equals
firing once, and cancellation after the fire reports false. -/
theorem cron_task_fires_at_most_once_witness :
    CronBridge.executeTask aiOk (CronBridge.executeTask aiOk pingState pingId) pingId =
      CronBridge.executeTask aiOk pingState pingId ∧
    (CronBridge.cancelTask (CronBridge.executeTask aiOk pingState pingId) pingId).2 = false :=
  ⟨(cron_task_fires_at_most_once aiOk pingState pingId).2.2.2.1,
   (cron_task_fires_at_most_once aiOk pingState pingId).2.2.2.2.2
     { id := pingId, originalPrompt := "ping", userId := "u1",
       scheduledAtMs := 0, executeAtMs := 5000, executed := false } rfl rfl⟩

/-- C7: scheduleTask followed immediately by cancelTask returns true, clears
the underlying timer (the event loop can no longer fire the task, and even a
direct spurious callback is a no-op) and removes the entry from the registry,
so the task never fires; cancelTask on an unknown id returns false and
changes nothing. -/
theorem cron_schedule_then_cancel (ai : AIOracle) (st : CronState)
    (prompt : String) (delaySeconds : Nat) (userId : String) :
    (CronBridge.cancelTask (CronBridge.scheduleTask st prompt delaySeconds userId).1
      (CronBridge.scheduleTask st prompt delaySeconds userId).2).2 = true ∧
    CronBridge.lookupTask
      (CronBridge.cancelTask (CronBridge.scheduleTask st prompt delaySeconds userId).1
        (CronBridge.scheduleTask st prompt delaySeconds userId).2).1
      (CronBridge.scheduleTask st prompt delaySeconds userId).2 = none ∧
    ((CronBridge.cancelTask (CronBridge.scheduleTask st prompt delaySeconds userId).1
        (CronBridge.scheduleTask st prompt delaySeconds userId).2).1).timers.contains
      (CronBridge.scheduleTask st prompt delaySeconds userId).2 = false ∧
    CronBridge.fireTimer ai
      (CronBridge.cancelTask (CronBridge.scheduleTask st prompt delaySeconds userId).1
        (CronBridge.scheduleTask st prompt delaySeconds userId).2).1
      (CronBridge.scheduleTask st prompt delaySeconds userId).2 =
      (CronBridge.cancelTask (CronBridge.scheduleTask st prompt delaySeconds userId).1
        (CronBridge.scheduleTask st prompt delaySeconds userId).2).1 ∧
    CronBridge.executeTask ai
      (CronBridge.cancelTask (CronBridge.scheduleTask st prompt delaySeconds userId).1
        (CronBridge.scheduleTask st prompt delaySeconds userId).2).1
      (CronBridge.scheduleTask st prompt delaySeconds userId).2 =
      (CronBridge.cancelTask (CronBridge.scheduleTask st prompt delaySeconds userId).1
        (CronBridge.scheduleTask st prompt delaySeconds userId).2).1 ∧
    (∀ p ∈ ((CronBridge.cancelTask (CronBridge.scheduleTask st prompt delaySeconds userId).1
        (CronBridge.scheduleTask st prompt delaySeconds userId).2).1).tasks,
      p.1 ≠ (CronBridge.scheduleTask st prompt delaySeconds userId).2) ∧
    (∀ i, CronBridge.lookupTask st i = none →
      CronBridge.cancelTask st i = (st, false)) := by
  have htask : CronBridge.lookupTask
      (CronBridge.scheduleTask st prompt delaySeconds userId).1
      (CronBridge.scheduleTask st prompt delaySeconds userId).2 = some
      { id := CronBridge.generateTaskId st, originalPrompt := prompt, userId := userId,
        scheduledAtMs := st.nowMs, executeAtMs := st.nowMs + delaySeconds * 1000,
        executed := false } :=
    lookupKey_setTask_self ..
  have hcancel := cancelTask_found htask
  have hlooknone : CronBridge.lookupTask
      (CronBridge.cancelTask (CronBridge.scheduleTask st prompt delaySeconds userId).1
        (CronBridge.scheduleTask st prompt delaySeconds userId).2).1
      (CronBridge.scheduleTask st prompt delaySeconds userId).2 = none := by
    rw [hcancel]
    exact lookupKey_eraseKey_self ..
  have hcontains : ((CronBridge.cancelTask
      (CronBridge.scheduleTask st prompt delaySeconds userId).1
      (CronBridge.scheduleTask st prompt delaySeconds userId).2).1).timers.contains
      (CronBridge.scheduleTask st prompt delaySeconds userId).2 = false := by
    rw [hcancel]
    exact contains_filter_ne ..
  refine ⟨by rw [hcancel], hlooknone, hcontains, ?_, executeTask_none hlooknone, ?_, ?_⟩
  · rw [CronBridge.fireTimer, hcontains]
    simp
  · intro p hp
    rw [hcancel] at hp
    simp only [CronBridge.eraseKey, List.mem_filter] at hp
    simpa using hp.2
  · intro i hi
    exact cancelTask_missing hi

/-- Witness for C7: the concretely scheduled ping task is cancelled, its
timer can no longer fire it, and cancelling an unknown id on the empty state
changes nothing. -/
theorem cron_schedule_then_cancel_witness :
    (CronBridge.cancelTask pingState pingId).2 = true ∧
    CronBridge.fireTimer aiOk (CronBridge.cancelTask pingState pingId).1 pingId =
      (CronBridge.cancelTask pingState pingId).1 ∧
    CronBridge.cancelTask {} "nope" = ({}, false) :=
  ⟨(cron_schedule_then_cancel aiOk {} "ping" 5 "u1").1,
   (cron_schedule_then_cancel aiOk {} "ping" 5 "u1").2.2.2.1,
   (cron_schedule_then_cancel aiOk {} "ping" 5 "u1").2.2.2.2.2.2 "nope" rfl⟩

/-- Counterexample for C2: at a concrete scheduled task with prompt ping, the
source's timer callback delivers the plain conversational reply to the stored
prompt (here PLAIN), while the chained-dispatch pipeline (mode 2) the claim
describes would have delivered the synthesis reply (here SYNTH, produced from
the s1 skill's labeled block): the timer callback does not invoke the
chained-dispatch pipeline. -/
theorem cron_fire_uses_plain_ai_cex :
    (CronBridge.executeTask aiPlainSynth pingState pingId).sent = [("u1", "PLAIN")] ∧
    (executeTaskSpecModelled detectS1 aiPlainSynth s1Reg pingState pingId).sent =
      [("u1", "SYNTH")] ∧
    ("PLAIN" : String) ≠ "SYNTH" := by
  refine ⟨by rfl, by rfl, by decide⟩

/-- C2 (amended): for every task that fires, the timer callback invokes the
plain conversational AI call with the stored prompt, and regardless of
outcome delivers exactly one message through the injected message-sending
callback — the AI reply on success or the fixed failure message on an
uncaught error — and then removes the task entry from the registry. -/
theorem cron_fire_delivers_exactly_one_message (ai : AIOracle) (st : CronState)
    (taskId : String) (t : ScheduledTask)
    (h : CronBridge.lookupTask st taskId = some t) (he : t.executed = false) :
    (CronBridge.executeTask ai st taskId).sent =
      st.sent ++ [(t.userId, firedResponse ai t.originalPrompt)] ∧
    CronBridge.lookupTask (CronBridge.executeTask ai st taskId) taskId = none :=
  ⟨(executeTask_fired ai h he).2.1, lookupTask_after_fired ai h he⟩

/-- Witness for C2 (amended): the concrete ping task fired under a rejecting
AI oracle delivers exactly the fixed failure message and is removed. -/
theorem cron_fire_delivers_exactly_one_message_witness :
    (CronBridge.executeTask aiFail pingState pingId).sent =
      [("u1", CronBridge.cronFailureMessage)] ∧
    CronBridge.lookupTask (CronBridge.executeTask aiFail pingState pingId) pingId =
      none := by
  refine ⟨?_, (cron_fire_delivers_exactly_one_message aiFail pingState pingId
    { id := pingId, originalPrompt := "ping", userId := "u1",
      scheduledAtMs := 0, executeAtMs := 5000, executed := false } rfl rfl).2⟩
  rw [(cron_fire_delivers_exactly_one_message aiFail pingState pingId
    { id := pingId, originalPrompt := "ping", userId := "u1",
      scheduledAtMs := 0, executeAtMs := 5000, executed := false } rfl rfl).1]
  rfl

/-- C5: any annotation text containing the literal [NO_SKILL] token makes
detectAllSkills return the empty list, whatever the registry holds (so the
result is independent of every enabled skill's detectSkill, which is never
consulted) and whatever else the text contains, well-formed skill segments
included. -/
theorem no_skill_sentinel_short_circuits (reg : List SkillRegistration) (s : String)
    (h : containsStr s "[NO_SKILL]" = true) :
    SkillManager.detectAllSkills reg s = [] := by
  simp [SkillManager.detectAllSkills, h]

/-- Witness for C5: a text holding both the sentinel and a well-formed cron
segment yields no detection. -/
theorem no_skill_sentinel_short_circuits_witness :
    containsStr "[NO_SKILL] mais [SKILL: cron] Prompt: \"p\" | Délai: 30s"
      "[NO_SKILL]" = true ∧
    SkillManager.detectAllSkills [{ skill := CronSkill.skill aiOk, enabled := true }]
      "[NO_SKILL] mais [SKILL: cron] Prompt: \"p\" | Délai: 30s" = [] :=
  ⟨by decide, no_skill_sentinel_short_circuits _ _ (by decide)⟩

section DispatchLemmas

lemma executeMultipleSkills_single_ok {d : DetectedSkill} {userId : String}
    {w w2 : CronState} {r : SkillExecutionResult}
    (hexec : d.skill.execute d.data userId w = (.ok r, w2)) :
    SkillManager.executeMultipleSkills [d] true userId w =
      ({ results := [{ r with skillName := some d.skillName }],
         combinedMessage :=
           if r.success && strTruthy r.message then r.message.getD "" else "",
         allSuccessful := r.success }, w2) := by
  unfold SkillManager.executeMultipleSkills
  by_cases hs : r.success <;> by_cases hm : strTruthy r.message <;>
    simp [List.foldl, SkillManager.multiStep, hexec, hs, hm, appendSep]

lemma executeMultipleSkills_pair_ok {a b : DetectedSkill} {userId : String}
    {w w1 w2 : CronState} {ra rb : SkillExecutionResult} {ma mb : String}
    (ha : a.skill.execute a.data userId w = (.ok ra, w1)) (has : ra.success = true)
    (ham : ra.message = some ma) (hma : ma ≠ "")
    (hb : b.skill.execute b.data userId w1 = (.ok rb, w2)) (hbs : rb.success = true)
    (hbm : rb.message = some mb) (hmb : mb ≠ "") :
    SkillManager.executeMultipleSkills [a, b] true userId w =
      ({ results := [{ ra with skillName := some a.skillName },
                     { rb with skillName := some b.skillName }],
         combinedMessage := ma ++ "\n\n" ++ mb,
         allSuccessful := true }, w2) := by
  unfold SkillManager.executeMultipleSkills
  simp [List.foldl, SkillManager.multiStep, ha, hb, has, hbs, ham, hbm,
    strTruthy, hma, hmb, appendSep]

end DispatchLemmas

/-- The registry and annotation of the concrete calculator example. -/
def calcReg : List SkillRegistration :=
  [{ skill := CalculatorSkill.skill, enabled := true }]

/-- The concrete calculator annotation of the example. -/
def calcAnn : String := "[SKILL: calculator] Expression: \"2 + 2\""

/-- The raw calculator result for the 2 + 2 annotation, with the dispatcher's
skillName tag. -/
def calcExpected : SkillExecutionResult :=
  { success := true,
    message := some "🧮 **Calculatrice**\n\n**Expression**: 2 + 2\n**Résultat**: 4",
    requiresResponse := some true,
    responseData := some (JVal.obj
      [("expression", JVal.str "2 + 2"),
       ("result", JVal.num (JNum.fin 4)),
       ("skillName", JVal.str "calculator")]),
    skillName := some "calculator" }

/-- C3: when detection yields exactly one skill, processSkillDetection
returns that skill's own ExecutionResult with no composite wrapper: success,
message, error, requiresResponse and responseData are the skill's own (the
dispatcher only tags the row with the skill's name), so no multiSkill flag
and no skillNames list appear.  In particular the calculator annotation with
expression 2 + 2 yields the calculator's raw result, whose message contains
4. -/
theorem single_skill_returns_raw_result :
    (∀ (reg : List SkillRegistration) (text userId : String) (w : CronState)
      (d : DetectedSkill) (r : SkillExecutionResult) (w2 : CronState),
      SkillManager.detectAllSkills reg text = [d] →
      d.skill.execute d.data userId w = (.ok r, w2) →
      SkillManager.processSkillDetection reg text true userId w =
        (some { r with skillName := some d.skillName }, w2)) ∧
    SkillManager.processSkillDetection calcReg calcAnn true "u1" {} =
      (some calcExpected, ({} : CronState)) ∧
    containsStr (calcExpected.message.getD "") "4" = true := by
  refine ⟨?_, by rfl, by decide⟩
  intro reg text userId w d r w2 hdet hexec
  simp [SkillManager.processSkillDetection, hdet,
    executeMultipleSkills_single_ok hexec]

/-- Witness for C3: a one-skill registry over a concrete annotation returns
the skill's raw result, untouched apart from the name tag. -/
theorem single_skill_returns_raw_result_witness :
    SkillManager.processSkillDetection
      [{ skill := mkTestSkill "alpha" "A-MSG", enabled := true }]
      "[SKILL: alpha] x" true "u1" {} =
      (some { success := true, message := some "A-MSG", requiresResponse := some true,
              skillName := some "alpha" }, ({} : CronState)) :=
  single_skill_returns_raw_result.1
    [{ skill := mkTestSkill "alpha" "A-MSG", enabled := true }]
    "[SKILL: alpha] x" "u1" {}
    { skill := mkTestSkill "alpha" "A-MSG", data := JVal.obj [], skillName := "alpha" }
    { success := true, message := some "A-MSG", requiresResponse := some true }
    {} rfl rfl

/-- C4: when detection yields two skills A then B that both execute
successfully with non-empty messages, processSkillDetection returns the
composite result: responseData carries multiSkill true, skillNames equal to
[A, B] in detection order, and the per-skill result rows; the combined
message is A's message, a blank line, then B's message. -/
theorem two_skills_composite_result (reg : List SkillRegistration)
    (text userId : String) (w w1 w2 : CronState) (a b : DetectedSkill)
    (ra rb : SkillExecutionResult) (ma mb : String)
    (hdet : SkillManager.detectAllSkills reg text = [a, b])
    (ha : a.skill.execute a.data userId w = (.ok ra, w1)) (has : ra.success = true)
    (ham : ra.message = some ma) (hma : ma ≠ "")
    (hb : b.skill.execute b.data userId w1 = (.ok rb, w2)) (hbs : rb.success = true)
    (hbm : rb.message = some mb) (hmb : mb ≠ "") :
    SkillManager.processSkillDetection reg text true userId w =
      (some { success := true, message := some (ma ++ "\n\n" ++ mb),
              requiresResponse := some true,
              responseData := some (JVal.obj
                [("multiSkill", JVal.boolv true),
                 ("skillNames", JVal.listv [JVal.str a.skillName, JVal.str b.skillName]),
                 ("results", JVal.listv
                   [encodeResult { ra with skillName := some a.skillName },
                    encodeResult { rb with skillName := some b.skillName }])]) },
        w2) := by
  simp [SkillManager.processSkillDetection, hdet,
    executeMultipleSkills_pair_ok ha has ham hma hb hbs hbm hmb]

/-- The tagged dispatcher row of the alpha test skill. -/
def rowAlphaTagged : SkillExecutionResult :=
  { success := true, message := some "A-MSG", requiresResponse := some true,
    skillName := some "alpha" }

/-- The tagged dispatcher row of the beta test skill. -/
def rowBetaTagged : SkillExecutionResult :=
  { success := true, message := some "B-MSG", requiresResponse := some true,
    skillName := some "beta" }

/-- Witness for C4: two concrete skills alpha then beta yield the composite
with ordered skillNames and the blank-line separated combined message. -/
theorem two_skills_composite_result_witness :
    SkillManager.processSkillDetection
      [{ skill := mkTestSkill "alpha" "A-MSG", enabled := true },
       { skill := mkTestSkill "beta" "B-MSG", enabled := true }]
      "[SKILL: alpha] [SKILL: beta]" true "u1" {} =
      (some { success := true, message := some "A-MSG\n\nB-MSG",
              requiresResponse := some true,
              responseData := some (JVal.obj
                [("multiSkill", JVal.boolv true),
                 ("skillNames", JVal.listv [JVal.str "alpha", JVal.str "beta"]),
                 ("results", JVal.listv
                   [encodeResult rowAlphaTagged, encodeResult rowBetaTagged])]) },
        ({} : CronState)) :=
  two_skills_composite_result
    [{ skill := mkTestSkill "alpha" "A-MSG", enabled := true },
     { skill := mkTestSkill "beta" "B-MSG", enabled := true }]
    "[SKILL: alpha] [SKILL: beta]" "u1" {} {} {}
    { skill := mkTestSkill "alpha" "A-MSG", data := JVal.obj [], skillName := "alpha" }
    { skill := mkTestSkill "beta" "B-MSG", data := JVal.obj [], skillName := "beta" }
    { success := true, message := some "A-MSG", requiresResponse := some true }
    { success := true, message := some "B-MSG", requiresResponse := some true }
    "A-MSG" "B-MSG" rfl rfl rfl rfl (by decide) rfl rfl rfl (by decide)

/-- Counterexample for C6: a detected skill whose validateData rejects every
argument bag is nevertheless executed by the dispatcher, whose entry for it
is the skill's successful result — executeMultipleSkills never consults
validateData, so validation at the dispatcher level neither happens nor
prevents execution. -/
theorem dispatcher_ignores_validate_cex :
    (invalidButRunnableSkill.validateData.getD (fun _ => true)) (JVal.obj []) = false ∧
    (SkillManager.executeMultipleSkills
      [{ skill := invalidButRunnableSkill, data := JVal.obj [], skillName := "bad" }]
      true "u1" {}).1.results =
      [{ success := true, message := some "RAN", skillName := some "bad" }] :=
  ⟨rfl, rfl⟩

/-- The validation-failure result of the cron skill. -/
def cronInvalidResult : SkillExecutionResult :=
  { success := false, error := some "Données invalides pour le skill cron" }

/-- C6 (amended): validation is enforced inside the skill's execute, not by
the dispatcher.  The cron skill's execute calls validateData before doing
anything: on invalid data it performs no side effect (the world is returned
unchanged — no task scheduled, no timer registered, no message sent) and
returns success false with the validation-specific error string, which the
dispatcher surfaces unchanged as that skill's entry; validateData itself is a
pure function of the parsed arguments. -/
theorem cron_validate_guards_execute (ai : AIOracle) (data : JVal)
    (userId : String) (w : CronState)
    (h : CronSkill.validateData data = false) :
    CronSkill.execute ai data userId w = (.ok cronInvalidResult, w) ∧
    SkillManager.executeMultipleSkills
      [{ skill := CronSkill.skill ai, data := data, skillName := "cron" }]
      true userId w =
      ({ results := [{ cronInvalidResult with skillName := some "cron" }],
         combinedMessage := "", allSuccessful := false }, w) := by
  have hex : CronSkill.execute ai data userId w = (.ok cronInvalidResult, w) := by
    simp [CronSkill.execute, h, cronInvalidResult]
  refine ⟨hex, ?_⟩
  have hstep := executeMultipleSkills_single_ok
    (d := { skill := CronSkill.skill ai, data := data, skillName := "cron" }) hex
  simpa [cronInvalidResult] using hstep

/-- Witness for C6 (amended): the empty argument bag fails cron validation,
and execute returns the validation error without touching the state. -/
theorem cron_validate_guards_execute_witness :
    CronSkill.validateData (JVal.obj []) = false ∧
    CronSkill.execute aiOk (JVal.obj []) "u1" {} =
      (.ok cronInvalidResult, ({} : CronState)) :=
  ⟨by decide, (cron_validate_guards_execute aiOk (JVal.obj []) "u1" {} (by decide)).1⟩

/-- The cron annotation with a 30s delay. -/
def ann30s : String := "[SKILL: cron] Prompt: \"ping\" | Délai: 30s"

/-- The cron annotation with a 5m delay. -/
def ann5m : String := "[SKILL: cron] Prompt: \"ping\" | Délai: 5m"

/-- The cron annotation with a 2h delay. -/
def ann2h : String := "[SKILL: cron] Prompt: \"ping\" | Délai: 2h"

/-- The cron annotation with a malformed delay unit. -/
def ann5x : String := "[SKILL: cron] Prompt: \"ping\" | Délai: 5x"

/-- The parsed cron data bag for the prompt ping and a given delay. -/
def cronPingData (delaySeconds : Nat) : JVal :=
  JVal.obj [("prompt", JVal.str "ping"),
            ("delaySeconds", JVal.num (JNum.fin delaySeconds))]

/-- C8: cron delay parsing maps a numeric value with unit suffix to seconds —
30s to 30, 5m to 300, 2h to 7200 — and whenever the delay pattern matches
nowhere in the annotation (in particular when the delay field carries a
malformed unit such as 5x), detectSkill returns "not detected" rather than an
error. -/
theorem cron_delay_unit_parsing :
    CronSkill.detectSkill ann30s =
      { isDetected := true, data := some (cronPingData 30) } ∧
    CronSkill.detectSkill ann5m =
      { isDetected := true, data := some (cronPingData 300) } ∧
    CronSkill.detectSkill ann2h =
      { isDetected := true, data := some (cronPingData 7200) } ∧
    (∀ s, findDelay s = none →
      CronSkill.detectSkill s = { isDetected := false, data := none }) ∧
    findDelay ann5x = none ∧
    CronSkill.detectSkill ann5x = { isDetected := false, data := none } := by
  refine ⟨by rfl, by rfl, by rfl, ?_, by decide, by rfl⟩
  intro s hs
  by_cases ht : hasTag ("cron".data) s.data
  · rcases hq : findQuoted "Prompt" s with _ | p <;>
      simp [CronSkill.detectSkill, ht, hq, hs]
  · simp [CronSkill.detectSkill, ht]

/-- Witness for C8: the malformed-unit annotation has no delay match, and the
general malformed-delay clause applied to it yields "not detected". -/
theorem cron_delay_unit_parsing_witness :
    findDelay "Texte avec Délai: 7q mal formé" = none ∧
    CronSkill.detectSkill "Texte avec Délai: 7q mal formé" =
      { isDetected := false, data := none } :=
  ⟨by decide, cron_delay_unit_parsing.2.2.2.1 "Texte avec Délai: 7q mal formé" (by decide)⟩

section ChainLemmas

lemma string_append_ne_empty {s : String} (t : String) (h : s ≠ "") :
    s ++ t ≠ "" := by
  intro hc
  apply h
  have hd := congrArg String.data hc
  rw [String.data_append] at hd
  have h1 : s.data = [] := (List.append_eq_nil.mp hd).1
  cases s with
  | mk d =>
    have h2 : d = [] := h1
    subst h2
    rfl

lemma bracket_block_ne_empty (nm sep msg : String) :
    ("[" ++ nm ++ sep ++ msg) ≠ "" :=
  string_append_ne_empty msg
    (string_append_ne_empty sep (string_append_ne_empty nm (by decide)))

lemma chainSteps_pair_ok (userId : String) {a b : DetectedSkill}
    {ra rb : SkillExecutionResult} {ma mb : String} {w w1 w2 : CronState}
    (ha : a.skill.execute a.data userId w = (.ok ra, w1)) (has : ra.success = true)
    (ham : ra.message = some ma) (hma : ma ≠ "")
    (hb : b.skill.execute b.data userId w1 = (.ok rb, w2)) (hbs : rb.success = true)
    (hbm : rb.message = some mb) (hmb : mb ≠ "") :
    [a, b].foldl (SkillManager.chainStep userId) ([], "", w) =
      ([a.skillName, b.skillName],
       "[" ++ a.skillName ++ "]: " ++ ma ++ "\n\n" ++
         ("[" ++ b.skillName ++ "]: " ++ mb),
       w2) := by
  have hne := bracket_block_ne_empty a.skillName "]: " ma
  simp [List.foldl, SkillManager.chainStep, ha, hb, has, hbs, ham, hbm,
    strTruthy, hma, hmb, appendSep, hne]

end ChainLemmas

/-- C9: in chained mode, the detected skills run strictly in sequence and
each successful skill appends its labeled block to the running buffer in
execution order, so for a detection yielding two skills A then B with
messages mA and mB, the final synthesis call receives exactly the template
around the original prompt and the buffer holding the A block, a blank line,
then the B block, and the outcome is that call's reply together with the
skills-used list [A, B]. -/
theorem chained_mode_labeled_blocks (detectOr ai : AIOracle)
    (reg : List SkillRegistration) (prompt userId det : String)
    (w w1 w2 : CronState) (a b : DetectedSkill) (ra rb : SkillExecutionResult)
    (ma mb : String)
    (hdet : detectOr prompt = .ok det)
    (hds : SkillManager.detectAllSkills reg det = [a, b])
    (ha : a.skill.execute a.data userId w = (.ok ra, w1)) (has : ra.success = true)
    (ham : ra.message = some ma) (hma : ma ≠ "")
    (hb : b.skill.execute b.data userId w1 = (.ok rb, w2)) (hbs : rb.success = true)
    (hbm : rb.message = some mb) (hmb : mb ≠ "") :
    SkillManager.executePromptWithSkills detectOr ai reg prompt userId w =
      ((match ai (SkillManager.mkFinalPrompt prompt
          ("[" ++ a.skillName ++ "]: " ++ ma ++ "\n\n" ++
            ("[" ++ b.skillName ++ "]: " ++ mb))) with
        | .ok resp => .ok { response := resp, skillsUsed := [a.skillName, b.skillName] }
        | .error e => .error e), w2) := by
  have hfold := chainSteps_pair_ok userId ha has ham hma hb hbs hbm hmb
  have hne : ("[" ++ a.skillName ++ "]: " ++ ma ++ "\n\n" ++
      ("[" ++ b.skillName ++ "]: " ++ mb)) ≠ "" :=
    string_append_ne_empty _
      (string_append_ne_empty _ (bracket_block_ne_empty a.skillName "]: " ma))
  cases hai : ai (SkillManager.mkFinalPrompt prompt
      ("[" ++ a.skillName ++ "]: " ++ ma ++ "\n\n" ++
        ("[" ++ b.skillName ++ "]: " ++ mb))) <;>
    simp [SkillManager.executePromptWithSkills, hdet, hds, hfold, hne, hai]

/-- The registry of the two chained test skills of the C9 example. -/
def regSysWeb : List SkillRegistration :=
  [{ skill := mkTestSkill "system_info" "SYS-FACT", enabled := true },
   { skill := mkTestSkill "web_search" "WEB-FACT", enabled := true }]

/-- The detection collaborator oracle yielding the two-skill annotation. -/
def detectSysWeb : AIOracle :=
  fun _ => .ok "[SKILL: system_info] [SKILL: web_search]"

/-- Witness for C9: the concrete chained run over system_info then web_search
delivers the synthesis reply with both skills in the used list. -/
theorem chained_mode_labeled_blocks_witness :
    SkillManager.executePromptWithSkills detectSysWeb aiOk regSysWeb
      "statut" "u1" {} =
      (.ok { response := "ok", skillsUsed := ["system_info", "web_search"] },
        ({} : CronState)) :=
  (chained_mode_labeled_blocks detectSysWeb aiOk regSysWeb "statut" "u1"
    "[SKILL: system_info] [SKILL: web_search]" {} {} {}
    { skill := mkTestSkill "system_info" "SYS-FACT", data := JVal.obj [],
      skillName := "system_info" }
    { skill := mkTestSkill "web_search" "WEB-FACT", data := JVal.obj [],
      skillName := "web_search" }
    { success := true, message := some "SYS-FACT", requiresResponse := some true }
    { success := true, message := some "WEB-FACT", requiresResponse := some true }
    "SYS-FACT" "WEB-FACT" rfl rfl rfl rfl rfl (by decide) rfl rfl rfl
    (by decide)).trans (by rfl)

/-- The blank-line concatenation of the messages of exactly those result rows
with success true and a truthy (non-empty, present) message — the
specification function which, applied to the run's own per-skill rows,
characterises which rows reach combinedMessage. -/
def combineSuccessMessages (rs : List SkillExecutionResult) : String :=
  rs.foldl
    (fun acc r =>
      if r.success && strTruthy r.message then appendSep acc (r.message.getD "")
      else acc)
    ""

section CombineLemmas

lemma combineSuccessMessages_append (rs : List SkillExecutionResult)
    (r : SkillExecutionResult) :
    combineSuccessMessages (rs ++ [r]) =
      if r.success && strTruthy r.message then
        appendSep (combineSuccessMessages rs) (r.message.getD "")
      else combineSuccessMessages rs := by
  unfold combineSuccessMessages
  rw [List.foldl_append]
  rfl

lemma multiStep_preserves (userId : String) (sender : Bool)
    (m : MultiSkillExecutionResult) (w : CronState) (d : DetectedSkill)
    (hm : m.combinedMessage = combineSuccessMessages m.results) :
    (SkillManager.multiStep userId sender (m, w) d).1.combinedMessage =
      combineSuccessMessages
        (SkillManager.multiStep userId sender (m, w) d).1.results := by
  by_cases hs : sender
  · rcases hexec : d.skill.execute d.data userId w with ⟨out, w2⟩
    cases out with
    | ok r =>
      by_cases hrs : r.success <;> by_cases hrm : strTruthy r.message <;>
        simp [SkillManager.multiStep, hs, hexec, hrs, hrm,
          combineSuccessMessages_append, hm]
    | error e =>
      simp [SkillManager.multiStep, hs, hexec, combineSuccessMessages_append, hm]
  · simp [SkillManager.multiStep, hs, combineSuccessMessages_append, hm]

lemma multi_fold_combined (ds : List DetectedSkill) (userId : String)
    (sender : Bool) (m : MultiSkillExecutionResult) (w : CronState)
    (hm : m.combinedMessage = combineSuccessMessages m.results) :
    (ds.foldl (SkillManager.multiStep userId sender) (m, w)).1.combinedMessage =
      combineSuccessMessages
        (ds.foldl (SkillManager.multiStep userId sender) (m, w)).1.results := by
  induction ds generalizing m w with
  | nil => simpa using hm
  | cons d ds ih =>
    rw [List.foldl_cons]
    rcases hstep : SkillManager.multiStep userId sender (m, w) d with ⟨m2, w2⟩
    have hpres := multiStep_preserves userId sender m w d hm
    rw [hstep] at hpres
    exact ih m2 w2 hpres

end CombineLemmas

/-- A synthetic skill whose execution fails with a fixed error, touching no
state. -/
def mkFailSkill (nm err : String) : SkillBase :=
  { name := nm,
    description := "test skill",
    detectSkill := fun _ => { isDetected := true, data := some (JVal.obj []) },
    execute := fun _ _ w => (.ok { success := false, error := some err }, w),
    validateData := none }

/-- C10: in independent/combine mode, combinedMessage is exactly the
blank-line concatenation of the messages of the rows with success true and a
non-empty message — a failed skill's error text and a skill short-circuited
by an absent message sender contribute nothing to it, affecting only the
per-skill rows (and through them allSuccessful); by contrast, in chained mode
a failed execution appends its error-labeled block to the accumulated
context. -/
theorem combine_mode_keeps_only_success_messages :
    (∀ (ds : List DetectedSkill) (sender : Bool) (userId : String) (w : CronState),
      (SkillManager.executeMultipleSkills ds sender userId w).1.combinedMessage =
        combineSuccessMessages
          (SkillManager.executeMultipleSkills ds sender userId w).1.results) ∧
    (∀ (userId : String) (acc : List String × String × CronState)
      (d : DetectedSkill) (r : SkillExecutionResult) (w2 : CronState),
      d.skill.execute d.data userId acc.2.2 = (.ok r, w2) → r.success = false →
      (SkillManager.chainStep userId acc d).2.1 =
        appendSep acc.2.1 ("[" ++ d.skillName ++ "] ERREUR: " ++
          optErrToString r.error)) := by
  constructor
  · intro ds sender userId w
    exact multi_fold_combined ds userId sender _ w rfl
  · intro userId acc d r w2 hexec hrs
    simp [SkillManager.chainStep, hexec, hrs]

/-- Witness for C10: a failing skill followed by a succeeding one leaves only
the success message in combinedMessage, while the chained step turns the same
failure into an error-labeled block. -/
theorem combine_mode_keeps_only_success_messages_witness :
    (SkillManager.executeMultipleSkills
      [{ skill := mkFailSkill "f1" "ERR", data := JVal.obj [], skillName := "f1" },
       { skill := mkTestSkill "alpha" "A-MSG", data := JVal.obj [],
         skillName := "alpha" }]
      true "u1" {}).1.combinedMessage = "A-MSG" ∧
    (SkillManager.chainStep "u1" ([], "", {})
      { skill := mkFailSkill "f1" "ERR", data := JVal.obj [],
        skillName := "f1" }).2.1 = "[f1] ERREUR: ERR" :=
  ⟨(combine_mode_keeps_only_success_messages.1
      [{ skill := mkFailSkill "f1" "ERR", data := JVal.obj [], skillName := "f1" },
       { skill := mkTestSkill "alpha" "A-MSG", data := JVal.obj [],
         skillName := "alpha" }]
      true "u1" {}).trans (by rfl),
   (combine_mode_keeps_only_success_messages.2 "u1" ([], "", {})
      { skill := mkFailSkill "f1" "ERR", data := JVal.obj [], skillName := "f1" }
      { success := false, error := some "ERR" } {} rfl rfl).trans (by rfl)⟩
